import Mathlib

/-!
Verification development for the jellycli player core.

This file gives a shallow embedding, in Lean 4, of the parts of the
jellycli source that the specification talks about: the play queue and
history (player package), the Player orchestrator's download logic
(player.Player.downloadSong and Player.Reorder), the stream buffer
(api.StreamBuffer), the background task wrapper (task.Task), the volume
mapping (player.Audio.SetVolume) and the volume model
(models.AudioVolume.Add).  Pure functions of the Go source become Lean
functions; the concurrent download path becomes an explicit interleaving
semantics over an atomic-step program; Go machine integers are modelled
as Int (with an explicit wrap at 2^64 where overflow is relevant) and Go
float32 arithmetic in the volume mapping is modelled over ℚ.

The queue implementation file (player/queue.go) is not part of the
source tree; its operations are modelled from the specification's §4.3,
with the behaviour of Reorder pinned by the repository's own unit tests
(Test_queue_Reorder and friends), which are part of the source tree.
-/

/-- Track/song: for the queue operations only the identity of a song
matters, so a song is modelled by its id. -/
structure Song where
  id : Nat
deriving DecidableEq, Repr

/-- Modelled from the spec: the Queue component (player/queue.go is
missing from the source tree).  `items` is the pending queue (index 0 =
now playing / imminent), `history` is reverse-chronological, and the
shuffle state keeps the captured pre-shuffle order so that disabling
shuffle can restore it (spec §4.3 SetShuffle). -/
structure Queue where
  items : List Song
  history : List Song
  shuffleEnabled : Bool
  savedOrder : List Song
deriving DecidableEq, Repr

/-- Modelled from the spec: `SongComplete()` pops index 0 of the queue
onto the front of History (spec §4.3); behaviour on concrete data pinned
by Test_queue_songComplete in the source tree. -/
def Queue.songComplete (q : Queue) : Queue :=
  match q.items with
  | [] => q
  | s :: rest => { q with items := rest, history := s :: q.history }

/-- Modelled from the spec: `PlayLastSong()` pops History's front back
onto the queue's head, and no-ops once History is empty (spec §4.3);
behaviour on concrete data pinned by TestQueue_playLastSong in the
source tree. -/
def Queue.playLastSong (q : Queue) : Queue :=
  match q.history with
  | [] => q
  | s :: rest => { q with items := s :: q.items, history := rest }

/-- Modelled from the spec: enabling shuffle captures the current order
and serves a permutation of the existing entries (spec §4.3).  The
random permutation drawn by the implementation is passed explicitly as
`σ`, since the embedding is deterministic. -/
def Queue.setShuffleOn (q : Queue) (σ : Equiv.Perm (Fin q.items.length)) : Queue :=
  { q with
    shuffleEnabled := true
    savedOrder := q.items
    items := List.ofFn (q.items.get ∘ σ) }

/-- Modelled from the spec: disabling shuffle restores the exact
pre-shuffle order (spec §4.3); a no-op when shuffle is not enabled. -/
def Queue.setShuffleOff (q : Queue) : Queue :=
  if q.shuffleEnabled then
    { q with shuffleEnabled := false, items := q.savedOrder, savedOrder := [] }
  else q

/-- Swap the adjacent entries at positions `i` and `i+1` of a list;
out-of-range indices leave the list unchanged. -/
def listSwapAdj {α : Type} : List α → Nat → List α
  | a :: b :: rest, 0 => b :: a :: rest
  | a :: rest, Nat.succ j => a :: listSwapAdj rest j
  | l, _ => l

/-- Modelled from the spec: `Queue.Reorder(index, left)` swaps the entry
at `index` with its neighbour in the requested direction and reports
whether a swap occurred (spec §4.3).  The exact direction semantics is
pinned by Test_queue_Reorder in the source tree: `left = true` moves the
entry one position earlier (refused at index 0), `left = false` moves it
one position later (refused at the last index); out-of-bounds indices
are silent no-ops. -/
def Queue.reorder (q : Queue) (index : Int) (left : Bool) : Bool × Queue :=
  let n := q.items.length
  if index < 0 ∨ (n : Int) ≤ index then (false, q)
  else
    let i := index.toNat
    if left then
      if i = 0 then (false, q)
      else (true, { q with items := listSwapAdj q.items (i - 1) })
    else
      if i + 1 = n then (false, q)
      else (true, { q with items := listSwapAdj q.items i })

/-- Device playback state (models.AudioState): stopped or playing. -/
inductive AudioState
  | stopped
  | playing
deriving DecidableEq, Repr

/-- Translated from Player.Reorder (cmd/env.go): while the device is
playing, refuse index 0 in both directions and index 1 moving earlier;
otherwise delegate to Queue.Reorder. -/
def playerReorder (state : AudioState) (q : Queue) (index : Int) (left : Bool) :
    Bool × Queue :=
  if state = AudioState.playing ∧ index = 0 then (false, q)
  else if state = AudioState.playing ∧ index = 1 ∧ left then (false, q)
  else q.reorder index left

/-- C4: for every non-empty queue, SongComplete() followed by
PlayLastSong() restores the queue and the history exactly; and for every
state with empty history, PlayLastSong() changes nothing. -/
theorem C4_song_complete_play_last_round_trip (q : Queue) :
    (q.items ≠ [] → q.songComplete.playLastSong = q) ∧
    (q.history = [] → q.playLastSong = q) := by
  constructor
  · intro h
    cases hq : q.items with
    | nil => exact absurd hq h
    | cons s rest =>
      simp only [Queue.songComplete, hq, Queue.playLastSong]
      cases q
      simp_all
  · intro h
    simp only [Queue.playLastSong, h]

/-- Witness for C4 at concrete queues. -/
theorem C4_round_trip_witness :
    (Queue.mk [⟨1⟩] [⟨2⟩] false []).songComplete.playLastSong
      = Queue.mk [⟨1⟩] [⟨2⟩] false [] ∧
    (Queue.mk [⟨3⟩] [] false []).playLastSong = Queue.mk [⟨3⟩] [] false [] :=
  ⟨(C4_song_complete_play_last_round_trip _).1 (by decide),
   (C4_song_complete_play_last_round_trip _).2 rfl⟩

/-- C5: enabling shuffle serves a permutation of the existing entries
(same multiset of song ids, no duplicates and no drops), and disabling
it afterwards restores the pre-shuffle order exactly. -/
theorem C5_shuffle_permutation_and_restore (q : Queue)
    (σ : Equiv.Perm (Fin q.items.length)) :
    (q.setShuffleOn σ).items.Perm q.items ∧
    ((q.setShuffleOn σ).items.map Song.id).Perm (q.items.map Song.id) ∧
    (q.items.Nodup → (q.setShuffleOn σ).items.Nodup) ∧
    ((q.setShuffleOn σ).setShuffleOff).items = q.items := by
  have hperm : (q.setShuffleOn σ).items.Perm q.items := by
    have h := Equiv.Perm.ofFn_comp_perm σ q.items.get
    simpa [Queue.setShuffleOn, List.ofFn_get] using h
  refine ⟨hperm, hperm.map Song.id, fun hn => hperm.nodup_iff.mpr hn, ?_⟩
  simp [Queue.setShuffleOn, Queue.setShuffleOff]

/-- Witness for C5 at a concrete two-song queue and the transposition. -/
theorem C5_shuffle_witness :
    ((Queue.mk [⟨1⟩, ⟨2⟩] [] false []).setShuffleOn
        (Equiv.swap ⟨0, by decide⟩ ⟨1, by decide⟩)).items.Perm [⟨1⟩, ⟨2⟩] ∧
    ((Queue.mk [⟨1⟩, ⟨2⟩] [] false []).setShuffleOn
        (Equiv.swap ⟨0, by decide⟩ ⟨1, by decide⟩)).items.Nodup ∧
    (((Queue.mk [⟨1⟩, ⟨2⟩] [] false []).setShuffleOn
        (Equiv.swap ⟨0, by decide⟩ ⟨1, by decide⟩)).setShuffleOff).items
      = [⟨1⟩, ⟨2⟩] :=
  ⟨(C5_shuffle_permutation_and_restore _ _).1,
   (C5_shuffle_permutation_and_restore _ _).2.2.1 (by decide),
   (C5_shuffle_permutation_and_restore _ _).2.2.2⟩

/-- C6 counterexample: with the device not playing, Reorder(0, later)
does swap the head with the second entry and returns true, so
"Reorder(0, direction) performs no swap" fails for the later
direction (behaviour pinned by the first-to-right case of
Test_queue_Reorder). -/
theorem C6_reorder_zero_later_counterexample :
    playerReorder AudioState.stopped (Queue.mk [⟨1⟩, ⟨2⟩] [] false []) 0 false
      = (true, Queue.mk [⟨2⟩, ⟨1⟩] [] false []) := by decide

/-- C6 amended: Reorder(0, earlier) never swaps in any state; while the
device is playing, Reorder(0, either direction) and Reorder(1, earlier)
are refused; when the device is not playing and at least two entries
exist, Reorder(0, later) swaps the first two entries and returns true;
and Reorder returns true exactly when a swap occurred (the index is in
bounds, the player does not refuse it, and the entry has a neighbour in
the requested direction). -/
theorem C6_reorder_amended (st : AudioState) (q : Queue) (index : Int) (left : Bool) :
    playerReorder st q 0 true = (false, q) ∧
    playerReorder AudioState.playing q 0 left = (false, q) ∧
    playerReorder AudioState.playing q 1 true = (false, q) ∧
    (2 ≤ q.items.length → st ≠ AudioState.playing →
      playerReorder st q 0 false = (true, { q with items := listSwapAdj q.items 0 })) ∧
    ((playerReorder st q index left).1 = true ↔
      (¬(st = AudioState.playing ∧ (index = 0 ∨ (index = 1 ∧ left = true))) ∧
        0 ≤ index ∧ index < (q.items.length : Int) ∧
        (left = true → index ≠ 0) ∧
        (left = false → index.toNat + 1 ≠ q.items.length))) := by
  refine ⟨?_, ?_, ?_, ?_, ?_⟩
  · cases st <;> simp only [playerReorder, Queue.reorder] <;> split_ifs <;> simp_all
  · simp only [playerReorder]
    split_ifs <;> simp_all
  · simp only [playerReorder, Queue.reorder]
    split_ifs <;> simp_all
  · intro hlen hst
    cases st with
    | playing => exact absurd rfl hst
    | stopped =>
      simp only [playerReorder, Queue.reorder]
      split_ifs <;> simp_all
      omega
  · cases left <;> cases st <;>
      simp only [playerReorder, Queue.reorder] <;>
      split_ifs <;> simp_all <;> omega

/-- Witness for C6 at concrete inputs: on a four-song queue,
Reorder(0, earlier) is refused while playing, and Reorder(0, later)
swaps the first two entries while stopped. -/
theorem C6_reorder_witness :
    playerReorder AudioState.playing (Queue.mk [⟨1⟩, ⟨2⟩, ⟨3⟩, ⟨4⟩] [] false []) 0 true
      = (false, Queue.mk [⟨1⟩, ⟨2⟩, ⟨3⟩, ⟨4⟩] [] false []) ∧
    playerReorder AudioState.stopped (Queue.mk [⟨1⟩, ⟨2⟩, ⟨3⟩, ⟨4⟩] [] false []) 0 false
      = (true, Queue.mk [⟨2⟩, ⟨1⟩, ⟨3⟩, ⟨4⟩] [] false []) :=
  ⟨(C6_reorder_amended AudioState.playing (Queue.mk [⟨1⟩, ⟨2⟩, ⟨3⟩, ⟨4⟩] [] false []) 0 true).1,
   (C6_reorder_amended AudioState.stopped (Queue.mk [⟨1⟩, ⟨2⟩, ⟨3⟩, ⟨4⟩] [] false []) 0 false).2.2.2.1
      (by decide) (by decide)⟩

/-- Program counter of one invocation of Player.downloadSong
(cmd/env.go).  Each constructor marks the point just before the next
atomic action; the lock is released between the actions, exactly as in
the Go source: the flag is read inside isDownloadingSong under RLock,
the flag is set under a separate Lock acquisition, the download (the
api.Stream call) runs with no lock held, and the flag is cleared under a
final Lock acquisition. -/
inductive DlPc
  | idle
  | passedCheck
  | downloading
  | done
  | aborted
deriving DecidableEq, Repr

/-- Shared state of the Player plus the control points of two concurrent
downloadSong invocations (for example one from the queueChanged callback
and one from Next, both of which run `go p.downloadSong(0)`). -/
structure DlState where
  flag : Bool
  pcA : DlPc
  pcB : DlPc
deriving DecidableEq, Repr

/-- One atomic action of a downloadSong invocation, translated from
cmd/env.go: read the flag (return early when it is set), set the flag,
perform the download, clear the flag.  Returns the new program counter
and the new flag value. -/
def dlStepOne (flag : Bool) : DlPc → DlPc × Bool
  | DlPc.idle => if flag then (DlPc.aborted, flag) else (DlPc.passedCheck, flag)
  | DlPc.passedCheck => (DlPc.downloading, true)
  | DlPc.downloading => (DlPc.done, false)
  | pc => (pc, flag)

/-- Interleaving step: `g = false` advances invocation A by one atomic
action, `g = true` advances invocation B. -/
def dlStep (s : DlState) (g : Bool) : DlState :=
  if g then
    let r := dlStepOne s.flag s.pcB
    { s with pcB := r.1, flag := r.2 }
  else
    let r := dlStepOne s.flag s.pcA
    { s with pcA := r.1, flag := r.2 }

/-- Run the two concurrent downloadSong invocations under a given
schedule of interleaved atomic actions. -/
def dlRun (s : DlState) : List Bool → DlState
  | [] => s
  | g :: rest => dlRun (dlStep s g) rest

/-- Atomic variant of the flag discipline that the claim describes: the
check and the set of the flag happen in one critical section (a genuine
test-and-set).  Used only to contrast with the source's behaviour. -/
def dlStepOneAtomic (flag : Bool) : DlPc → DlPc × Bool
  | DlPc.idle => if flag then (DlPc.aborted, flag) else (DlPc.downloading, true)
  | DlPc.downloading => (DlPc.done, false)
  | pc => (pc, flag)

/-- Interleaving step of the atomic test-and-set variant. -/
def dlStepAtomic (s : DlState) (g : Bool) : DlState :=
  if g then
    let r := dlStepOneAtomic s.flag s.pcB
    { s with pcB := r.1, flag := r.2 }
  else
    let r := dlStepOneAtomic s.flag s.pcA
    { s with pcA := r.1, flag := r.2 }

/-- Run of the atomic test-and-set variant. -/
def dlRunAtomic (s : DlState) : List Bool → DlState
  | [] => s
  | g :: rest => dlRunAtomic (dlStepAtomic s g) rest

/-- Both invocations have a download in flight (both sit between the
flag-set and the flag-clear, i.e. inside the api.Stream call). -/
def bothDownloading (s : DlState) : Bool :=
  decide (s.pcA = DlPc.downloading ∧ s.pcB = DlPc.downloading)

/-- Invariant of the atomic variant: the flag is set exactly when some
invocation is downloading, and never are both downloading. -/
def dlAtomicInv (s : DlState) : Bool :=
  decide ((s.flag = true ↔ (s.pcA = DlPc.downloading ∨ s.pcB = DlPc.downloading)) ∧
    ¬(s.pcA = DlPc.downloading ∧ s.pcB = DlPc.downloading))

/-- Invariant preservation for the atomic variant, by exhausting the
finite state space. -/
theorem dlAtomicInv_step (s : DlState) (g : Bool) (h : dlAtomicInv s = true) :
    dlAtomicInv (dlStepAtomic s g) = true := by
  obtain ⟨flag, pcA, pcB⟩ := s
  revert h
  cases flag <;> cases pcA <;> cases pcB <;> cases g <;> decide

/-- Every reachable state of the atomic test-and-set variant keeps the
invariant. -/
theorem dlAtomicInv_run (s : DlState) (sched : List Bool) (h : dlAtomicInv s = true) :
    dlAtomicInv (dlRunAtomic s sched) = true := by
  induction sched generalizing s with
  | nil => exact h
  | cons g rest ih => exact ih _ (dlAtomicInv_step s g h)

/-- C1: the flag check and the flag set in downloadSong are not atomic —
the flag is read under an RLock that is released before the write Lock
is taken — so the interleaving in which both invocations pass the check
before either sets the flag puts two downloads in flight at once; under
a genuine atomic test-and-set (the discipline the claim describes) no
schedule whatsoever reaches such a state. -/
theorem C1_race_two_downloads_in_flight :
    bothDownloading (dlRun ⟨false, DlPc.idle, DlPc.idle⟩ [false, true, false, true]) = true ∧
    (∀ sched : List Bool,
      bothDownloading (dlRunAtomic ⟨false, DlPc.idle, DlPc.idle⟩ sched) = false) := by
  constructor
  · decide
  · intro sched
    have h := dlAtomicInv_run ⟨false, DlPc.idle, DlPc.idle⟩ sched (by decide)
    simp only [dlAtomicInv, decide_eq_true_eq] at h
    simp only [bothDownloading, decide_eq_false_iff_not]
    exact h.2

/-- Terminal condition of a stream download (api/stream.go, part_004):
io.EOF for a clean end of data, io.ErrClosedPipe for deliberate
cancellation, or an underlying fetch error (carrying an abstract code). -/
inductive StreamErr
  | eof
  | closedPipe
  | readFailure (code : Nat)
deriving DecidableEq, Repr

/-- Shared state of a StreamBuffer as observed under its mutex: the
byte buffer, the downloadDone flag and the stored terminal error
(some err exactly once the download has terminated). -/
structure StreamState where
  buff : List Nat
  downloadDone : Bool
  downloadErr : Option StreamErr
deriving DecidableEq, Repr

/-- Outcome of one StreamBuffer.Read call: bytes handed out together
with the successor state, still blocked after exhausting all wake-ups,
or zero bytes with the stored terminal error (successor state included
to show that a terminal read leaves the state untouched). -/
inductive ReadOutcome
  | bytes (data : List Nat) (rest : StreamState)
  | blocked
  | terminal (err : Option StreamErr) (rest : StreamState)
deriving DecidableEq, Repr

/-- Translated from StreamBuffer.Read (part_004, cond-wait version,
which the spec adopts as normative): while the buffer is empty and the
download is not done, wait on the condition variable — each cond.Wait
returns with the state some writer left behind, supplied here as the
`wakes` list; a call that exhausts `wakes` is still blocked.  Once the
loop exits, buffered bytes are returned when present (at most `n`, as
bytes.Buffer.Read does for a destination of length `n`), and otherwise
the download is done and the stored terminal error is returned with
zero bytes. -/
def StreamBuffer.read (s : StreamState) (wakes : List StreamState) (n : Nat) :
    ReadOutcome :=
  if s.buff.isEmpty && !s.downloadDone then
    match wakes with
    | [] => ReadOutcome.blocked
    | w :: ws => StreamBuffer.read w ws n
  else if !s.buff.isEmpty then
    ReadOutcome.bytes (s.buff.take n) { s with buff := s.buff.drop n }
  else
    ReadOutcome.terminal s.downloadErr s

/-- Translated from bufferBackground (part_004): when readData reports
that the fetch finished, downloadDone is set and the terminal condition
(io.EOF or the read error) is stored; the flag is never unset. -/
def bufferFinish (s : StreamState) (err : StreamErr) : StreamState :=
  { s with downloadDone := true, downloadErr := some err }

/-- Translated from bufferBackground (part_004): a cancel signal sets
downloadDone with the distinguished io.ErrClosedPipe condition. -/
def bufferCancel (s : StreamState) : StreamState :=
  bufferFinish s StreamErr.closedPipe

/-- Translated from readData (part_004): a successful chunk read appends
the freshly fetched bytes to the buffer. -/
def bufferAppend (s : StreamState) (data : List Nat) : StreamState :=
  { s with buff := s.buff ++ data }

/-- C2: Read hands out buffered bytes immediately (without consulting
any wake-up) when the buffer is non-empty; with an empty buffer and the
download not terminal it waits on the condition variable — blocked when
no wake-up ever comes, and re-examining the state a writer left behind
otherwise; with an empty buffer in the terminal state it returns zero
bytes and the stored terminal error, leaving the state untouched, so
every subsequent Read returns the same — and cancellation stores the
distinguished closed error while a finished fetch stores its own
terminal condition. -/
theorem C2_stream_read_contract (s w : StreamState) (wakes : List StreamState)
    (n : Nat) (e : StreamErr) :
    (s.buff ≠ [] →
      StreamBuffer.read s wakes n
        = ReadOutcome.bytes (s.buff.take n) { s with buff := s.buff.drop n }) ∧
    (s.buff = [] → s.downloadDone = false →
      StreamBuffer.read s [] n = ReadOutcome.blocked) ∧
    (s.buff = [] → s.downloadDone = false →
      StreamBuffer.read s (w :: wakes) n = StreamBuffer.read w wakes n) ∧
    (s.buff = [] → s.downloadDone = true →
      StreamBuffer.read s wakes n = ReadOutcome.terminal s.downloadErr s) ∧
    (bufferCancel s).downloadErr = some StreamErr.closedPipe ∧
    (bufferFinish s e).downloadDone = true ∧
    (bufferFinish s e).downloadErr = some e := by
  refine ⟨?_, ?_, ?_, ?_, rfl, rfl, rfl⟩
  · intro h
    rw [StreamBuffer.read.eq_def]
    simp [List.isEmpty_iff, h]
  · intro h hd
    rw [StreamBuffer.read.eq_def]
    simp [List.isEmpty_iff, h, hd]
  · intro h hd
    rw [StreamBuffer.read.eq_def]
    simp [List.isEmpty_iff, h, hd]
  · intro h hd
    rw [StreamBuffer.read.eq_def]
    simp [List.isEmpty_iff, h, hd]

/-- Witness for C2 at concrete stream states: a buffered read, a
blocked read, a wake-up that delivers data, and terminal reads after a
clean end. -/
theorem C2_stream_read_witness :
    StreamBuffer.read ⟨[7, 8, 9], false, none⟩ [] 2
      = ReadOutcome.bytes [7, 8] ⟨[9], false, none⟩ ∧
    StreamBuffer.read ⟨[], false, none⟩ [] 2 = ReadOutcome.blocked ∧
    StreamBuffer.read ⟨[], false, none⟩ [⟨[5], false, none⟩] 2
      = StreamBuffer.read ⟨[5], false, none⟩ [] 2 ∧
    StreamBuffer.read ⟨[], true, some StreamErr.eof⟩ [] 2
      = ReadOutcome.terminal (some StreamErr.eof) ⟨[], true, some StreamErr.eof⟩ :=
  ⟨(C2_stream_read_contract ⟨[7, 8, 9], false, none⟩ ⟨[], false, none⟩ [] 2
      StreamErr.eof).1 (by decide),
   (C2_stream_read_contract ⟨[], false, none⟩ ⟨[], false, none⟩ [] 2
      StreamErr.eof).2.1 rfl rfl,
   (C2_stream_read_contract ⟨[], false, none⟩ ⟨[5], false, none⟩ [] 2
      StreamErr.eof).2.2.1 rfl rfl,
   (C2_stream_read_contract ⟨[], true, some StreamErr.eof⟩ ⟨[], false, none⟩ [] 2
      StreamErr.eof).2.2.2.1 rfl rfl⟩

/-- Translated from NewStreamDownload (part_004): the 64 KiB minimum
applied to the initial-fill target. -/
def minBufferBytes : Int := 64 * 1024

/-- Translated from NewStreamDownload (part_004): the bitrate in bytes
per second is content-length divided by duration when the
Content-Length header parses and both values are positive, and zero
(unknown) otherwise. -/
def computeBitrate (parseOk : Bool) (length duration : Int) : Int :=
  if parseOk = true ∧ 0 < duration ∧ 0 < length then length / duration else 0

/-- Translated from NewStreamDownload (part_004): the initial-fill byte
target — the explicit InitialBufferKB configuration (converted to
bytes) when positive, else bitrate × HttpBufferingS floored at 64 KiB
when the bitrate is known, else a 512 KiB fallback; and finally the
whole result is floored at 64 KiB again (which also affects the
explicit-KB branch). -/
def initialBufferTarget (initialBufferKB bitrate httpBufferingS : Int) : Int :=
  let base :=
    if 0 < initialBufferKB then initialBufferKB * 1024
    else if 0 < bitrate then
      let target := bitrate * httpBufferingS
      if target < minBufferBytes then minBufferBytes else target
    else 512 * 1024
  if base < minBufferBytes then minBufferBytes else base

/-- Stated from the claim's words, for comparison with the source: the
target is the explicit configured KB threshold when positive, otherwise
bitrate × buffering-seconds floored at 64 KiB, otherwise 512 KiB. -/
def claimedInitialBufferTarget (initialBufferKB bitrate httpBufferingS : Int) : Int :=
  if 0 < initialBufferKB then initialBufferKB * 1024
  else if 0 < bitrate then max (bitrate * httpBufferingS) minBufferBytes
  else 512 * 1024

/-- Result of the synchronous initial-fill loop of NewStreamDownload:
construction succeeds with the buffered bytes, fails with the terminal
error when the fetch ended with nothing buffered, or stays blocked
when the byte source never delivers another chunk and never ends. -/
inductive FillResult
  | success (buff : List Nat)
  | failure (err : StreamErr)
  | blocked
deriving DecidableEq, Repr

/-- Translated from the initial-fill loop of NewStreamDownload
(part_004): before each readData the buffer length is checked against
the target; each source event appends its bytes and, when it carries a
terminal condition, ends the fill — with a construction error if the
buffer is still empty, and with success (after a logged warning) if
some bytes were buffered. -/
def initialFill (target : Nat) (buff : List Nat)
    (src : List (List Nat × Option StreamErr)) : FillResult :=
  if target ≤ buff.length then FillResult.success buff
  else
    match src with
    | [] => FillResult.blocked
    | (data, none) :: rest => initialFill target (buff ++ data) rest
    | (data, some e) :: _ =>
      if (buff ++ data).length = 0 then FillResult.failure e
      else FillResult.success (buff ++ data)
termination_by src.length
decreasing_by simp

/-- C3 counterexample: with an explicit InitialBufferKB of 1 the source
computes a target of 65536 bytes (the 64 KiB floor also caps the
explicit branch), not the 1024 bytes the claim's formula gives. -/
theorem C3_claimed_target_counterexample :
    initialBufferTarget 1 0 5 = 65536 ∧
    claimedInitialBufferTarget 1 0 5 = 1024 ∧
    initialBufferTarget 1 0 5 ≠ claimedInitialBufferTarget 1 0 5 := by decide

/-- C3 amended: the initial-fill target is the explicit configured KB
threshold when positive — itself floored at 64 KiB — otherwise
bitrate × buffering seconds floored at 64 KiB (bitrate = content-length
divided by duration when both are positive), otherwise a 512 KiB
fallback; the spec's scenario (1,000,000 bytes, 10 s, HttpBufferingS=5,
no KB override) yields 500,000 bytes; and construction keeps reading
until the buffer holds the target or the fetch ends — failing when the
fetch ends with zero bytes buffered and succeeding with partial
bytes. -/
theorem C3_initial_buffer_and_fill (kb br sec : Int) (target : Nat)
    (buff data : List Nat) (src rest : List (List Nat × Option StreamErr))
    (e : StreamErr) :
    (0 < kb → initialBufferTarget kb br sec = max (kb * 1024) minBufferBytes) ∧
    (kb ≤ 0 → 0 < br →
      initialBufferTarget kb br sec = max (br * sec) minBufferBytes) ∧
    (kb ≤ 0 → br ≤ 0 → initialBufferTarget kb br sec = 512 * 1024) ∧
    (computeBitrate true 1000000 10 = 100000 ∧
      initialBufferTarget 0 100000 5 = 500000) ∧
    (target ≤ buff.length → initialFill target buff src = FillResult.success buff) ∧
    (buff.length < target →
      initialFill target buff ((data, none) :: rest)
        = initialFill target (buff ++ data) rest) ∧
    (buff.length < target → initialFill target buff [] = FillResult.blocked) ∧
    (0 < target →
      initialFill target [] (([], some e) :: rest) = FillResult.failure e) ∧
    (data ≠ [] → data.length < target →
      initialFill target [] ((data, some e) :: rest) = FillResult.success data) := by
  refine ⟨?_, ?_, ?_, by decide, ?_, ?_, ?_, ?_, ?_⟩
  · intro h
    simp only [initialBufferTarget, minBufferBytes]
    generalize br * sec = t
    split_ifs <;> omega
  · intro hkb hbr
    simp only [initialBufferTarget, minBufferBytes]
    generalize hbs : br * sec = t
    split_ifs <;> omega
  · intro hkb hbr
    simp only [initialBufferTarget, minBufferBytes]
    generalize br * sec = t
    split_ifs <;> omega
  · intro h
    conv_lhs => rw [initialFill.eq_def]
    rw [if_pos h]
  · intro h
    conv_lhs => rw [initialFill.eq_def]
    rw [if_neg (by omega)]
  · intro h
    conv_lhs => rw [initialFill.eq_def]
    rw [if_neg (by omega)]
  · intro h
    conv_lhs => rw [initialFill.eq_def]
    rw [if_neg (by simp; omega)]
    simp
  · intro hne hlt
    have hdata : 0 < data.length := List.length_pos.mpr hne
    conv_lhs => rw [initialFill.eq_def]
    rw [if_neg (by simp; omega)]
    simp [hne]

/-- Witness for C3 at concrete inputs: the explicit-KB branch (100 KiB
configured), the scenario bitrate branch, the unknown-bitrate fallback,
a target already met, a chunk append, a blocked source, a zero-byte
end that fails construction, and a partial end that succeeds. -/
theorem C3_initial_buffer_witness :
    initialBufferTarget 100 0 5 = max (100 * 1024) minBufferBytes ∧
    initialBufferTarget 0 100000 5 = max (100000 * 5) minBufferBytes ∧
    initialBufferTarget 0 0 5 = 512 * 1024 ∧
    initialFill 2 [1, 2, 3] [] = FillResult.success [1, 2, 3] ∧
    initialFill 3 [1] (([2], none) :: []) = initialFill 3 [1, 2] [] ∧
    initialFill 3 [1] [] = FillResult.blocked ∧
    initialFill 3 [] (([], some StreamErr.eof) :: []) = FillResult.failure StreamErr.eof ∧
    initialFill 3 [] (([9], some StreamErr.eof) :: []) = FillResult.success [9] :=
  ⟨(C3_initial_buffer_and_fill 100 0 5 0 [] [] [] [] StreamErr.eof).1 (by decide),
   (C3_initial_buffer_and_fill 0 100000 5 0 [] [] [] [] StreamErr.eof).2.1
      (by decide) (by decide),
   (C3_initial_buffer_and_fill 0 0 5 0 [] [] [] [] StreamErr.eof).2.2.1
      (by decide) (by decide),
   (C3_initial_buffer_and_fill 0 0 5 2 [1, 2, 3] [] [] [] StreamErr.eof).2.2.2.2.1
      (by decide),
   (C3_initial_buffer_and_fill 0 0 5 3 [1] [2] [] [] StreamErr.eof).2.2.2.2.2.1
      (by decide),
   (C3_initial_buffer_and_fill 0 0 5 3 [1] [] [] [] StreamErr.eof).2.2.2.2.2.2.1
      (by decide),
   (C3_initial_buffer_and_fill 0 0 5 3 [] [] [] [] StreamErr.eof).2.2.2.2.2.2.2.1
      (by decide),
   (C3_initial_buffer_and_fill 0 0 5 3 [] [9] [] [] StreamErr.eof).2.2.2.2.2.2.2.2
      (by decide) (by decide)⟩

/-- Transient-failure signature checked by downloadSong (cmd/env.go):
strings.Contains(err.Error(), "A task was canceled"), with the message
modelled as a character list. -/
def taskCanceledSig : List Char := "A task was canceled".toList

/-- Outcome of one api.Stream call as downloadSong observes it:
success, or an error carrying its message. -/
inductive StreamAttempt
  | success
  | failure (msg : List Char)
deriving DecidableEq

/-- Translated from the error handling of downloadSong (cmd/env.go):
a first Stream failure whose message contains the transient signature
is retried exactly once (after a one-second sleep, not modelled as the
embedding has no clock); any other first failure, and a failure of the
retry, is only logged.  Returns how many Stream calls were made and
whether a download was obtained. -/
def downloadStreamCalls (first second : StreamAttempt) : Nat × Bool :=
  match first with
  | StreamAttempt.success => (1, true)
  | StreamAttempt.failure msg =>
    if List.IsInfix taskCanceledSig msg then
      match second with
      | StreamAttempt.success => (2, true)
      | StreamAttempt.failure _ => (2, false)
    else (1, false)

/-- C7: a download failure is retried exactly once, and only when the
error message carries the transient "A task was canceled" signature;
no third Stream call ever happens, a non-matching failure is not
retried, and the download succeeds exactly when the first attempt
succeeds or a transient first failure is followed by a successful
retry. -/
theorem C7_download_retry_policy (first second : StreamAttempt) :
    (downloadStreamCalls first second).1 ≤ 2 ∧
    ((downloadStreamCalls first second).1 = 2 ↔
      ∃ m, first = StreamAttempt.failure m ∧ List.IsInfix taskCanceledSig m) ∧
    ((downloadStreamCalls first second).2 = true ↔
      (first = StreamAttempt.success ∨
        ∃ m, first = StreamAttempt.failure m ∧ List.IsInfix taskCanceledSig m ∧
          second = StreamAttempt.success)) := by
  cases first with
  | success => simp [downloadStreamCalls]
  | failure msg =>
    by_cases hsig : List.IsInfix taskCanceledSig msg <;>
      cases second <;>
      simp_all [downloadStreamCalls]

/-- Fields of task.Task (task/task.go) that Start and Stop consult:
the initialized flag, whether a loop function is registered, the
running flag, and whether the stop channel has been allocated. -/
structure BgTask where
  initialized : Bool
  hasLoop : Bool
  running : Bool
  stopChanInit : Bool
deriving DecidableEq, Repr

/-- Errors returned by task.Task.Start and Task.Stop (task/task.go). -/
inductive TaskErr
  | alreadyRunning
  | noLoopFunction
  | notInitialized
  | notRunning
deriving DecidableEq, Repr

/-- Translated from Task.SetLoop (task/task.go): registers the loop and
marks the task initialized. -/
def BgTask.setLoop (t : BgTask) : BgTask :=
  { t with hasLoop := true, initialized := true }

/-- Translated from Task.Start (task/task.go): under the task lock,
fail if already running, if no loop is registered, or if not
initialized; otherwise allocate the stop channel when absent, mark
running, and dispatch the loop onto a new goroutine (the returned Bool
records that the loop was dispatched). -/
def BgTask.start (t : BgTask) : Except TaskErr (BgTask × Bool) :=
  if t.running then Except.error TaskErr.alreadyRunning
  else if !t.hasLoop then Except.error TaskErr.noLoopFunction
  else if !t.initialized then Except.error TaskErr.notInitialized
  else Except.ok ({ t with stopChanInit := true, running := true }, true)

/-- Translated from Task.Stop (task/task.go): under the task lock, fail
if not running; otherwise send the one-shot stop value on the stop
channel (the returned Bool records that the signal was sent; the
running flag is cleared later by the loop itself, so the state is
otherwise unchanged). -/
def BgTask.stop (t : BgTask) : Except TaskErr (BgTask × Bool) :=
  if !t.running then Except.error TaskErr.notRunning
  else Except.ok (t, true)

/-- C9: Start returns an error — leaving the task unstarted — exactly
when the task is already running, has no loop registered, or is not
initialized; otherwise it marks the task running, dispatches the loop,
and succeeds.  Stop returns an error exactly when the task is not
running; otherwise it sends the one-shot stop signal and succeeds. -/
theorem C9_task_start_stop_contract (t : BgTask) :
    ((∃ e, t.start = Except.error e) ↔
      (t.running = true ∨ t.hasLoop = false ∨ t.initialized = false)) ∧
    (t.running = false → t.hasLoop = true → t.initialized = true →
      t.start = Except.ok ({ t with stopChanInit := true, running := true }, true)) ∧
    ((∃ e, t.stop = Except.error e) ↔ t.running = false) ∧
    (t.running = true → t.stop = Except.ok (t, true)) := by
  obtain ⟨init, hasLoop, running, chan⟩ := t
  cases init <;> cases hasLoop <;> cases running <;> cases chan <;>
    simp [BgTask.start, BgTask.stop]

/-- Witness for C9 at concrete tasks: a stopped, initialized task with
a loop starts successfully, and a running task stops successfully. -/
theorem C9_task_witness :
    (BgTask.mk true true false false).start
      = Except.ok (BgTask.mk true true true true, true) ∧
    (BgTask.mk true true true true).stop = Except.ok (BgTask.mk true true true true, true) :=
  ⟨(C9_task_start_stop_contract (BgTask.mk true true false false)).2.1 rfl rfl rfl,
   (C9_task_start_stop_contract (BgTask.mk true true true true)).2.2.2 rfl⟩

/-- Modelled from the spec: the configured volume-to-attenuation range
endpoints — config.AudioMinVolumedB and config.AudioMaxVolumedB in the
Go source; the config constants file is not part of the source tree, so
they are kept as parameters (the spec only injects them as "range
endpoints").  The volume endpoints are models.AudioVolumeMin = 0 and
models.AudioVolumeMax = 100, which are in the source tree.  Go float32
arithmetic is modelled over ℚ. -/
structure VolumeConfig where
  minDB : ℚ
  maxDB : ℚ

/-- Translated from player/audio.go: linear scaling coefficient
a = (AudioMaxVolumedB - AudioMinVolumedB) / (AudioMaxVolume -
AudioMinVolume). -/
def volumeTodBA (c : VolumeConfig) : ℚ := (c.maxDB - c.minDB) / (100 - 0)

/-- Translated from player/audio.go: offset b = AudioMinVolumedB -
AudioMinVolume. -/
def volumeTodBB (c : VolumeConfig) : ℚ := c.minDB - 0

/-- Translated from volumeTodB (player/audio.go): the linear
volume-to-decibel map a·volume + b. -/
def volumeTodB (c : VolumeConfig) (volume : Int) : ℚ :=
  volumeTodBA c * volume + volumeTodBB c

/-- Observable outcome of Audio.SetVolume (player/audio.go): the
silent flag, the attenuation level handed to the playback volume
effect, and the volume stored in the status snapshot. -/
structure SetVolumeResult where
  silent : Bool
  level : ℚ
  statusVolume : Int
deriving DecidableEq, Repr

/-- Translated from Audio.SetVolume (player/audio.go): attenuations at
or below the configured minimum set the silent flag and store
AudioVolumeMin; attenuations at or above the configured maximum store
AudioVolumeMax; anything in between stores the requested volume and
the computed attenuation. -/
def setVolume (c : VolumeConfig) (volume : Int) : SetVolumeResult :=
  let decibels := volumeTodB c volume
  if decibels ≤ c.minDB then ⟨true, c.minDB, 0⟩
  else if c.maxDB ≤ decibels then ⟨false, c.maxDB, 100⟩
  else ⟨false, decibels, volume⟩

/-- The mapped attenuation sits at or below the configured minimum
exactly for volumes at or below 0, when the attenuation range is
non-degenerate. -/
theorem volumeTodB_le_min_iff (c : VolumeConfig) (h : c.minDB < c.maxDB) (v : Int) :
    volumeTodB c v ≤ c.minDB ↔ v ≤ 0 := by
  have hA : 0 < volumeTodBA c := by
    unfold volumeTodBA
    apply div_pos (by linarith) (by norm_num)
  unfold volumeTodB volumeTodBB
  constructor
  · intro hle
    by_contra hv
    push_neg at hv
    have hvq : (0 : ℚ) < (v : ℚ) := by exact_mod_cast hv
    nlinarith
  · intro hv
    have hvq : (v : ℚ) ≤ 0 := by exact_mod_cast hv
    nlinarith

/-- The mapped attenuation reaches the configured maximum exactly for
volumes at or above 100, when the attenuation range is
non-degenerate. -/
theorem max_le_volumeTodB_iff (c : VolumeConfig) (h : c.minDB < c.maxDB) (v : Int) :
    c.maxDB ≤ volumeTodB c v ↔ 100 ≤ v := by
  have hA : 0 < volumeTodBA c := by
    unfold volumeTodBA
    apply div_pos (by linarith) (by norm_num)
  have hA100 : volumeTodBA c * 100 = c.maxDB - c.minDB := by
    unfold volumeTodBA
    field_simp
  unfold volumeTodB volumeTodBB
  constructor
  · intro hle
    by_contra hv
    push_neg at hv
    have hvq : (v : ℚ) < 100 := by exact_mod_cast hv
    nlinarith
  · intro hv
    have hvq : (100 : ℚ) ≤ (v : ℚ) := by exact_mod_cast hv
    nlinarith

/-- C8: with a non-degenerate attenuation range, SetVolume stores a
status volume clamped into [0,100] — SetVolume(150) stores exactly
100 — the volume-to-decibel map is monotone (it is linear with
non-negative slope), and the silent flag is set exactly for volumes
whose mapped attenuation is at or below the configured minimum. -/
theorem C8_set_volume_contract (c : VolumeConfig) (h : c.minDB < c.maxDB) (v w : Int) :
    (0 ≤ (setVolume c v).statusVolume ∧ (setVolume c v).statusVolume ≤ 100) ∧
    (setVolume c 150).statusVolume = 100 ∧
    (v ≤ w → volumeTodB c v ≤ volumeTodB c w) ∧
    ((setVolume c v).silent = true ↔ volumeTodB c v ≤ c.minDB) := by
  have hA : (0 : ℚ) ≤ volumeTodBA c := by
    unfold volumeTodBA
    apply div_nonneg (by linarith) (by norm_num)
  refine ⟨?_, ?_, ?_, ?_⟩
  · simp only [setVolume]
    split_ifs with h1 h2
    · simp
    · simp
    · have hv0 : ¬v ≤ 0 := fun hv => h1 ((volumeTodB_le_min_iff c h v).mpr hv)
      have hv100 : ¬100 ≤ v := fun hv => h2 ((max_le_volumeTodB_iff c h v).mpr hv)
      constructor <;> simp <;> omega
  · simp only [setVolume]
    rw [if_neg, if_pos]
    · exact (max_le_volumeTodB_iff c h 150).mpr (by norm_num)
    · intro hcon
      have := (volumeTodB_le_min_iff c h 150).mp hcon
      omega
  · intro hvw
    have hvq : (v : ℚ) ≤ (w : ℚ) := by exact_mod_cast hvw
    have hmul := mul_le_mul_of_nonneg_left hvq hA
    unfold volumeTodB
    linarith
  · simp only [setVolume]
    split_ifs with h1 h2 <;> simp [h1]

/-- Witness for C8 with the historical jellycli endpoints (-6 dB to
0 dB): SetVolume(150) stores a clamped status volume of exactly 100. -/
theorem C8_set_volume_witness :
    (0 ≤ (setVolume ⟨-6, 0⟩ 150).statusVolume ∧
      (setVolume ⟨-6, 0⟩ 150).statusVolume ≤ 100) ∧
    (setVolume ⟨-6, 0⟩ 150).statusVolume = 100 ∧
    volumeTodB ⟨-6, 0⟩ 30 ≤ volumeTodB ⟨-6, 0⟩ 70 :=
  ⟨(C8_set_volume_contract ⟨-6, 0⟩ (by norm_num) 150 0).1,
   (C8_set_volume_contract ⟨-6, 0⟩ (by norm_num) 150 0).2.1,
   (C8_set_volume_contract ⟨-6, 0⟩ (by norm_num) 30 70).2.2.1 (by norm_num)⟩

/-- Bound of the signed 64-bit machine integer Go uses for
models.AudioVolume (Go `int` on a 64-bit platform). -/
def int64Bound : Int := 2 ^ 63

/-- Wraparound of signed 64-bit integer addition. -/
def int64Wrap (x : Int) : Int := (x + int64Bound) % 2 ^ 64 - int64Bound

/-- Translated from models.AudioVolume.Add (part_002, part_003):
result = receiver + delta in the machine integer, returned clamped at
AudioVolumeMin = 0 below and AudioVolumeMax = 100 above. -/
def audioVolumeAdd (a vol : Int) : Int :=
  let result := int64Wrap (a + vol)
  if result < 0 then 0
  else if 100 < result then 100
  else result

/-- C10 counterexample: at receiver 2^63 − 1 and delta 1 the machine
addition wraps to the most negative int, so Add returns the lower
bound 0 even though the mathematical sum exceeds 100 and the claim
demands the upper bound 100. -/
theorem C10_add_overflow_counterexample :
    audioVolumeAdd (2 ^ 63 - 1) 1 = 0 ∧
    100 < (2 ^ 63 - 1 : Int) + 1 ∧
    audioVolumeAdd (2 ^ 63 - 1) 1 ≠ 100 := by decide

/-- C10 amended: whenever the mathematical sum receiver + delta fits in
the signed 64-bit machine integer, Add returns that sum clamped into
[0,100] (0 below, 100 above), so the result always lies in [0,100]
even for out-of-range receivers or deltas. -/
theorem C10_add_clamps (a vol : Int) (h1 : -(2 ^ 63) ≤ a + vol)
    (h2 : a + vol < 2 ^ 63) :
    audioVolumeAdd a vol = max 0 (min 100 (a + vol)) ∧
    0 ≤ audioVolumeAdd a vol ∧ audioVolumeAdd a vol ≤ 100 := by
  have hwrap : int64Wrap (a + vol) = a + vol := by
    unfold int64Wrap int64Bound
    have h0 : 0 ≤ a + vol + 2 ^ 63 := by linarith
    have hlt : a + vol + 2 ^ 63 < 2 ^ 64 := by
      have hsplit : (2 : Int) ^ 64 = 2 ^ 63 + 2 ^ 63 := by ring
      linarith
    rw [Int.emod_eq_of_lt h0 hlt]
    ring
  simp only [audioVolumeAdd]
  rw [hwrap]
  split_ifs <;> omega

/-- Witness for C10 at a concrete in-range sum: 90 + 20 clamps to the
upper bound. -/
theorem C10_add_clamps_witness :
    audioVolumeAdd 90 20 = max 0 (min 100 (90 + 20)) ∧
    0 ≤ audioVolumeAdd 90 20 ∧ audioVolumeAdd 90 20 ≤ 100 :=
  C10_add_clamps 90 20 (by norm_num) (by norm_num)
